import Mathlib

/-!
Verification of the RAG proof-of-concept pipeline: a shallow embedding of
the vector utilities (src/lib/vectorUtils.ts), the embedding service with
its chunking and similarity search (src/services/EmbeddingService.ts), the
flat-file record store (src/lib/DatabaseAdapter.ts) and the document
processor (src/services/DocumentProcessorService.ts).

Numbers are idealised as real numbers.  Remote effects (the embedding
provider, fresh UUID generation, the file system) are passed explicitly:
the embedding model is a function from strings to vectors, generated ids
are explicit parameters, and a table is the list of JSON values stored in
its file.  Fallible operations return Except, and the batch insert reports
the performed write as an Option (none when no write happened).
-/

namespace RagPoc

/-! ### Vector utilities (src/lib/vectorUtils.ts) -/

/-- The summed products accumulated by the loop in dotProduct
(`product += vecA[i] * vecB[i]`); with equal lengths the loop over the
indices of vecA is exactly the sum over the zipped lists. -/
noncomputable def dotVal (vecA vecB : List ℝ) : ℝ :=
  (List.zipWith (fun a b => a * b) vecA vecB).sum

/-- dotProduct: throws when the dimensions differ, otherwise returns the
sum of the pointwise products. -/
noncomputable def dotProduct (vecA vecB : List ℝ) : Except String ℝ :=
  if vecA.length ≠ vecB.length then
    Except.error "Vectors must have the same dimension for dot product."
  else
    Except.ok (dotVal vecA vecB)

/-- magnitude: the square root of the sum of squares of the entries. -/
noncomputable def magnitude (vec : List ℝ) : ℝ :=
  Real.sqrt ((vec.map (fun x => x * x)).sum)

/-- cosineSimilarity: computes both magnitudes, returns 0 when either is
zero or the dimensions differ, otherwise divides the dot product by the
product of the magnitudes.  The try/catch around the body is modelled by
the error branch of dotProduct mapping to the neutral value 0. -/
noncomputable def cosineSimilarity (vecA vecB : List ℝ) : ℝ :=
  if magnitude vecA = 0 ∨ magnitude vecB = 0 ∨ vecA.length ≠ vecB.length then 0
  else
    match dotProduct vecA vecB with
    | Except.ok d => d / (magnitude vecA * magnitude vecB)
    | Except.error _ => 0

/-! ### JSON values and the flat-file record store (src/lib/DatabaseAdapter.ts)

A table is the array of JSON values parsed from the table file.  A JS
object is a list of string-keyed fields; property lookup takes the last
binding of a key, matching the semantics of objects produced by
JSON.parse and object spread (later occurrences win). -/

/-- A JSON value as stored in a table file.  Numbers are idealised reals. -/
inductive JValue : Type where
  | null : JValue
  | bool : Bool → JValue
  | num : ℝ → JValue
  | str : String → JValue
  | arr : List JValue → JValue
  | obj : List (String × JValue) → JValue

/-- Property access on an object: the last binding of the key wins. -/
def lookupField (fields : List (String × JValue)) (key : String) : Option JValue :=
  (fields.reverse.find? (fun p => p.1 == key)).map (fun p => p.2)

/-- hasOwnProperty on an object. -/
def hasOwn (fields : List (String × JValue)) (key : String) : Bool :=
  fields.any (fun p => p.1 == key)

/-- DatabaseAdapter.insert: rejects inputs that are not plain objects and
inputs already carrying an id property, otherwise appends the input with a
freshly generated id and writes the extended table.  The generated id is
the explicit parameter newId; the result carries the inserted record and
the table content written back. -/
def insert (table : List JValue) (data : JValue) (newId : String) :
    Except String (JValue × List JValue) :=
  match data with
  | JValue.obj fields =>
    if hasOwn fields "id" then
      Except.error "Input data should not contain an id property; it will be generated."
    else
      let newRecord := JValue.obj (fields ++ [("id", JValue.str newId)])
      Except.ok (newRecord, table ++ [newRecord])
  | _ => Except.error "Data to insert must be an object."

/-- The loop of DatabaseAdapter.insertMany: walks the input array, skips
entries that are not plain objects or already have an id property, and
turns each remaining entry into a record with the next generated id
(ids k is the k-th generated id). -/
def insertManyLoop (ids : Nat → String) : Nat → List JValue → List JValue
  | _, [] => []
  | k, d :: rest =>
    match d with
    | JValue.obj fields =>
      if hasOwn fields "id" then insertManyLoop ids k rest
      else JValue.obj (fields ++ [("id", JValue.str (ids k))]) :: insertManyLoop ids (k + 1) rest
    | _ => insertManyLoop ids k rest

/-- DatabaseAdapter.insertMany: returns the new records, and the table
content written back — none when no record was valid, in which case the
file is not touched at all. -/
def insertMany (table : List JValue) (dataArray : List JValue) (ids : Nat → String) :
    List JValue × Option (List JValue) :=
  let newRecords := insertManyLoop ids 0 dataArray
  (newRecords, if newRecords.length > 0 then some (table ++ newRecords) else none)

/-- The element validity check shared by insert and the insertMany loop:
a plain (non-null, non-array) object without an id property. -/
def isValidInsertData (d : JValue) : Bool :=
  match d with
  | JValue.obj fields => !hasOwn fields "id"
  | _ => false

/-- Attaching a generated id to a plain object (the spread
`{ ...data, id }` with the id bound last). -/
def addId (d : JValue) (id : String) : JValue :=
  match d with
  | JValue.obj fields => JValue.obj (fields ++ [("id", JValue.str id)])
  | _ => d

/-- The predicate of the find in DatabaseAdapter.getById: a non-null
object whose id property strictly equals the given string. -/
def idMatches (r : JValue) (id : String) : Bool :=
  match r with
  | JValue.obj fields =>
    match lookupField fields "id" with
    | some (JValue.str s) => s == id
    | _ => false
  | _ => false

/-- DatabaseAdapter.getById: rejects an empty id (a falsy string), then
returns the first record matching the id, or none. -/
def getById (table : List JValue) (id : String) : Option JValue :=
  if id = "" then none
  else table.find? (fun r => idMatches r id)

/-- The validity predicate of DatabaseAdapter.getAll: a non-null object
with a string id property. -/
def hasStringId (r : JValue) : Bool :=
  match r with
  | JValue.obj fields =>
    match lookupField fields "id" with
    | some (JValue.str _) => true
    | _ => false
  | _ => false

/-- DatabaseAdapter.getAll: every valid record of the table, in storage
order. -/
def getAll (table : List JValue) : List JValue :=
  table.filter hasStringId

/-! ### EmbeddingService (src/services/EmbeddingService.ts) -/

/-- EmbeddingService.generateEmbedding: an empty (falsy) input text short
circuits to the empty vector without consulting the remote model; any
other text is embedded by the model. -/
def generateEmbedding (em : String → List ℝ) (value : String) : List ℝ :=
  if value = "" then [] else em value

/-- JS String.prototype.substring with clamping at the end of the string:
the characters at positions i ≤ p < j. -/
def jsSubstring (s : List Char) (i j : Nat) : List Char :=
  (s.take j).drop i

/-- The chunking loop of EmbeddingService.generateEmbeddings:
`for (let i = 0; i < value.length; i += chunkSize - overlap)` pushing
`value.substring(i, i + chunkSize)`.  The loop only terminates when the
step chunkSize − overlap is positive, which the hypothesis records. -/
def chunkLoop (s : List Char) (chunkSize step : Nat) (hstep : 0 < step) (i : Nat) :
    List (List Char) :=
  if i < s.length then jsSubstring s i (i + chunkSize) :: chunkLoop s chunkSize step hstep (i + step)
  else []
termination_by s.length - i
decreasing_by omega

/-- The same chunking loop instrumented with fuel: none means the fuel was
exhausted before the loop finished, so termination of the source loop is
the existence of a sufficient fuel. -/
def chunkLoopFuel (s : List Char) (chunkSize step : Nat) : Nat → Nat → Option (List (List Char))
  | _, 0 => none
  | i, fuel + 1 =>
    if i < s.length then
      match chunkLoopFuel s chunkSize step (i + step) fuel with
      | some rest => some (jsSubstring s i (i + chunkSize) :: rest)
      | none => none
    else some []

/-- The chunks produced by EmbeddingService.generateEmbeddings for a given
text (the loop started at position 0 with step chunkSize − overlap). -/
def chunkText (value : String) (chunkSize overlap : Nat) (h : overlap < chunkSize) :
    List String :=
  (chunkLoop value.toList chunkSize (chunkSize - overlap) (by omega) 0).map String.mk

/-- EmbeddingService.generateEmbeddings: empty text yields no chunks; any
other text is chunked and each chunk is embedded by the model, yielding
content/embedding pairs in chunk order. -/
def generateEmbeddings (em : String → List ℝ) (value : String) (chunkSize overlap : Nat)
    (h : overlap < chunkSize) : List (String × List ℝ) :=
  if value = "" then []
  else
    let chunks := chunkText value chunkSize overlap h
    if chunks.length = 0 then []
    else chunks.map (fun c => (c, em c))

/-- The similarity threshold fixed inside EmbeddingService.findMostSimilar. -/
noncomputable def SIMILARITY_THRESHOLD : ℝ := 0.5

/-- The shape of a stored embedding record as consumed by the similarity
search.  The embedding is optional to reflect the runtime guard
`!record.embedding` on records read back from the store. -/
structure EmbeddingRecord : Type where
  id : String
  resourceId : String
  contentChunk : String
  embedding : Option (List ℝ)

/-- The loop of EmbeddingService.findMostSimilar: records with a missing
embedding or one whose dimension differs from the query vector are
skipped; a record whose cosine similarity to the query reaches the
threshold is pushed onto the results, preserving storage order. -/
noncomputable def searchLoop (queryVector : List ℝ) : List EmbeddingRecord → List EmbeddingRecord
  | [] => []
  | record :: rest =>
    match record.embedding with
    | none => searchLoop queryVector rest
    | some e =>
      if e.length ≠ queryVector.length then searchLoop queryVector rest
      else if SIMILARITY_THRESHOLD ≤ cosineSimilarity queryVector e then
        record :: searchLoop queryVector rest
      else searchLoop queryVector rest

/-- EmbeddingService.findMostSimilar: an empty query vector or an empty
record list yields null; otherwise the records passing the threshold, in
storage order. -/
noncomputable def findMostSimilar (queryVector : List ℝ) (storedEmbeddings : List EmbeddingRecord) :
    Option (List EmbeddingRecord) :=
  if queryVector.length = 0 ∨ storedEmbeddings.length = 0 then none
  else some (searchLoop queryVector storedEmbeddings)

/-- A record the search keeps: its embedding is present, has the dimension
of the query vector, and its cosine similarity to the query reaches the
threshold. -/
def passes (q : List ℝ) (r : EmbeddingRecord) : Prop :=
  ∃ e, r.embedding = some e ∧ e.length = q.length ∧ SIMILARITY_THRESHOLD ≤ cosineSimilarity q e

/-- Boolean form of passes, used to phrase the search as a filter. -/
noncomputable def passesB (q : List ℝ) (r : EmbeddingRecord) : Bool :=
  match r.embedding with
  | none => false
  | some e => decide (e.length = q.length) && decide (SIMILARITY_THRESHOLD ≤ cosineSimilarity q e)

/-! ### DocumentProcessorService (src/services/DocumentProcessorService.ts) -/

/-- The validity filter applied in findRelevantContent to the records read
from the embeddings table: an object with string resourceId, string
contentChunk and an array embedding. -/
def isValidEmbeddingRec (r : JValue) : Bool :=
  match r with
  | JValue.obj fields =>
    (match lookupField fields "resourceId" with
     | some (JValue.str _) => true
     | _ => false) &&
    (match lookupField fields "contentChunk" with
     | some (JValue.str _) => true
     | _ => false) &&
    (match lookupField fields "embedding" with
     | some (JValue.arr _) => true
     | _ => false)
  | _ => false

/-- Numeric reading of a stored embedding array; entries that are not
numbers are read as 0 (the theorems below only rely on this reading for
arrays that consist of numbers). -/
def numsOf (l : List JValue) : List ℝ :=
  l.map (fun v => match v with | JValue.num x => x | _ => 0)

/-- Is every entry of the array a number? -/
def allNums (l : List JValue) : Bool :=
  l.all (fun v => match v with | JValue.num _ => true | _ => false)

/-- String reading of an optional JSON value. -/
def strOf (o : Option JValue) : String :=
  match o with
  | some (JValue.str s) => s
  | _ => ""

/-- The typed view under which findRelevantContent hands a stored record
to findMostSimilar. -/
def toEmbeddingRecord (r : JValue) : EmbeddingRecord :=
  match r with
  | JValue.obj fields =>
    { id := strOf (lookupField fields "id")
      resourceId := strOf (lookupField fields "resourceId")
      contentChunk := strOf (lookupField fields "contentChunk")
      embedding :=
        match lookupField fields "embedding" with
        | some (JValue.arr l) => some (numsOf l)
        | _ => none }
  | _ => { id := "", resourceId := "", contentChunk := "", embedding := none }

/-- The result structure returned by the search. -/
structure SearchServiceResult : Type where
  chunks : List EmbeddingRecord

/-- The valid stored embedding records seen by the search: getAll on the
embeddings table followed by the validity filter. -/
def validEmbRecs (embTable : List JValue) : List JValue :=
  (getAll embTable).filter isValidEmbeddingRec

/-- DocumentProcessorService.findRelevantContent: embeds the query (null
when the query vector is empty), loads and filters the stored embedding
records (null when none is valid), ranks them with findMostSimilar, and
returns null when no chunk was matched, otherwise the matched chunks. -/
noncomputable def findRelevantContent (em : String → List ℝ) (embTable : List JValue)
    (userQuery : String) : Option SearchServiceResult :=
  let queryVector := generateEmbedding em userQuery
  if queryVector.length = 0 then none
  else
    let validStored := validEmbRecs embTable
    if validStored.length = 0 then none
    else
      match findMostSimilar queryVector (validStored.map toEmbeddingRecord) with
      | none => none
      | some matched => if matched.length = 0 then none else some ⟨matched⟩

/-- JS String.prototype.trim on the character list: whitespace stripped
from both ends. -/
def jsTrim (s : List Char) : List Char :=
  ((s.dropWhile Char.isWhitespace).reverse.dropWhile Char.isWhitespace).reverse

/-- The two tables touched by the document processor. -/
structure DbState : Type where
  resources : List JValue
  embeddings : List JValue

/-- DocumentProcessorService.processPdf from the point where the text has
been extracted from the PDF: rejects blank text, stores the full text as
one resource record, chunks and embeds the text, and batch-inserts one
embedding record per chunk carrying the chunk, its vector and the
resource id.  resId is the id generated for the resource record and
embIds the ids generated for the embedding records; the result carries
the new table state, the stored resource and the number of embedding
records stored. -/
def processPdf (em : String → List ℝ) (resId : String) (embIds : Nat → String)
    (sourceFile fullText : String) (st : DbState) :
    Except String (DbState × JValue × Nat) :=
  if jsTrim fullText.toList = [] then Except.error "PDF contains no text content."
  else
    match insert st.resources
        (JValue.obj [("content", JValue.str fullText), ("sourceFile", JValue.str sourceFile)])
        resId with
    | Except.error e => Except.error e
    | Except.ok (resource, resources') =>
      let chunkEmbeddings := generateEmbeddings em fullText 500 50 (by omega)
      if chunkEmbeddings.length = 0 then
        Except.ok ({ resources := resources', embeddings := st.embeddings }, resource, 0)
      else
        let toInsert := chunkEmbeddings.map (fun ce =>
          JValue.obj [("resourceId", JValue.str resId), ("contentChunk", JValue.str ce.1),
            ("embedding", JValue.arr (ce.2.map JValue.num))])
        let res := insertMany st.embeddings toInsert embIds
        Except.ok ({ resources := resources', embeddings := res.2.getD st.embeddings },
          resource, res.1.length)

/-! ### Lemmas about the chunking loop -/

lemma chunkLoop_unfold (s : List Char) (cs step : Nat) (h : 0 < step) (i : Nat) :
    chunkLoop s cs step h i =
      if i < s.length then jsSubstring s i (i + cs) :: chunkLoop s cs step h (i + step)
      else [] := by
  rw [chunkLoop]

lemma chunkLoop_getElem (s : List Char) (cs step : Nat) (h : 0 < step) :
    ∀ k i, (chunkLoop s cs step h i)[k]? =
      if i + step * k < s.length then some (jsSubstring s (i + step * k) (i + step * k + cs))
      else none := by
  intro k
  induction k with
  | zero =>
    intro i
    rw [chunkLoop_unfold]
    by_cases hi : i < s.length
    · simp [hi]
    · simp [hi]
  | succ k ih =>
    intro i
    rw [chunkLoop_unfold]
    by_cases hi : i < s.length
    · rw [if_pos hi]
      simp only [List.getElem?_cons_succ]
      rw [ih (i + step)]
      have harith : i + step + step * k = i + step * (k + 1) := by ring
      rw [harith]
    · rw [if_neg hi]
      have hout : ¬ i + step * (k + 1) < s.length := by omega
      simp [hout]

lemma chunkLoop_length (s : List Char) (cs step : Nat) (h : 0 < step) :
    ∀ m i, s.length - i ≤ m →
      (chunkLoop s cs step h i).length = (s.length - i + step - 1) / step := by
  intro m
  induction m with
  | zero =>
    intro i hi
    have hz : s.length - i = 0 := by omega
    have hd : (0 + step - 1) / step = 0 := Nat.div_eq_of_lt (by omega)
    rw [chunkLoop_unfold, if_neg (by omega), hz]
    simp only [List.length_nil, hd]
  | succ m ih =>
    intro i hi
    by_cases hin : i < s.length
    · rw [chunkLoop_unfold, if_pos hin]
      simp only [List.length_cons]
      rw [ih (i + step) (by omega)]
      by_cases hcase : s.length - i ≤ step
      · have h1 : s.length - (i + step) = 0 := by omega
        rw [h1]
        have h2 : (0 + step - 1) / step = 0 := Nat.div_eq_of_lt (by omega)
        rw [h2]
        have h3 : s.length - i + step - 1 = (s.length - i - 1) + step := by omega
        rw [h3, Nat.add_div_right _ h]
        have h4 : (s.length - i - 1) / step = 0 := Nat.div_eq_of_lt (by omega)
        omega
      · have h1 : s.length - (i + step) + step - 1 = s.length - i - 1 := by omega
        have h2 : s.length - i + step - 1 = (s.length - i - 1) + step := by omega
        rw [h1, h2, Nat.add_div_right _ h]
    · have hz : s.length - i = 0 := by omega
      have hd : (0 + step - 1) / step = 0 := Nat.div_eq_of_lt (by omega)
      rw [chunkLoop_unfold, if_neg hin, hz]
      simp only [List.length_nil, hd]

lemma chunkLoopFuel_succ (s : List Char) (cs step i fuel : Nat) :
    chunkLoopFuel s cs step i (fuel + 1) =
      if i < s.length then
        match chunkLoopFuel s cs step (i + step) fuel with
        | some rest => some (jsSubstring s i (i + cs) :: rest)
        | none => none
      else some [] := rfl

lemma chunkLoopFuel_eq (s : List Char) (cs step : Nat) (h : 0 < step) :
    ∀ fuel i, s.length - i ≤ fuel * step →
      chunkLoopFuel s cs step i (fuel + 1) = some (chunkLoop s cs step h i) := by
  intro fuel
  induction fuel with
  | zero =>
    intro i hi
    rw [Nat.zero_mul] at hi
    have hin : ¬ i < s.length := by omega
    rw [chunkLoop_unfold, if_neg hin, chunkLoopFuel_succ, if_neg hin]
  | succ fuel ih =>
    intro i hi
    have hexp : (fuel + 1) * step = fuel * step + step := by ring
    rw [hexp] at hi
    by_cases hin : i < s.length
    · rw [chunkLoop_unfold, if_pos hin, chunkLoopFuel_succ, if_pos hin,
        ih (i + step) (by omega)]
    · rw [chunkLoop_unfold, if_neg hin, chunkLoopFuel_succ, if_neg hin]

lemma jsSubstring_eq_drop_take (s : List Char) (i cs : Nat) :
    jsSubstring s i (i + cs) = (s.drop i).take cs := by
  rw [jsSubstring, List.drop_take]
  congr 1
  omega

/-! ### Lemmas about the record store -/

lemma lookupField_append_id (fields : List (String × JValue)) (v : JValue) :
    lookupField (fields ++ [("id", v)]) "id" = some v := by
  simp [lookupField]

lemma insert_valid (table : List JValue) (fields : List (String × JValue)) (newId : String)
    (h : hasOwn fields "id" = false) :
    insert table (JValue.obj fields) newId =
      Except.ok (JValue.obj (fields ++ [("id", JValue.str newId)]),
        table ++ [JValue.obj (fields ++ [("id", JValue.str newId)])]) := by
  simp [insert, h]

lemma idMatches_new (fields : List (String × JValue)) (newId : String) :
    idMatches (JValue.obj (fields ++ [("id", JValue.str newId)])) newId = true := by
  simp [idMatches, lookupField_append_id]

lemma mapIdx_ext {α β : Type _} (f g : Nat → α → β) (h : ∀ i a, f i a = g i a) :
    ∀ l : List α, l.mapIdx f = l.mapIdx g := by
  intro l
  induction l generalizing f g with
  | nil => simp
  | cons a l ih =>
    rw [List.mapIdx_cons, List.mapIdx_cons, h 0 a, ih _ _ (fun i b => h (i + 1) b)]

lemma insertManyLoop_eq_mapIdx (ids : Nat → String) :
    ∀ (l : List JValue) (k : Nat),
      insertManyLoop ids k l =
        (l.filter isValidInsertData).mapIdx (fun j d => addId d (ids (k + j))) := by
  intro l
  induction l with
  | nil => intro k; simp [insertManyLoop]
  | cons d rest ih =>
    intro k
    cases d with
    | obj fields =>
      cases hid : hasOwn fields "id" with
      | true =>
        simp only [insertManyLoop, hid, if_true, List.filter_cons, isValidInsertData,
          Bool.not_true, Bool.false_eq_true, if_false]
        exact ih k
      | false =>
        simp only [insertManyLoop, hid, Bool.false_eq_true, if_false, List.filter_cons,
          isValidInsertData, Bool.not_false, if_true, List.mapIdx_cons]
        rw [ih (k + 1), mapIdx_ext _ (fun i d => addId d (ids (k + (i + 1))))
          (fun i a => by rw [Nat.add_right_comm]; rfl)]
        simp [addId]
    | null => simpa [insertManyLoop, List.filter_cons, isValidInsertData] using ih k
    | bool b => simpa [insertManyLoop, List.filter_cons, isValidInsertData] using ih k
    | num x => simpa [insertManyLoop, List.filter_cons, isValidInsertData] using ih k
    | str t => simpa [insertManyLoop, List.filter_cons, isValidInsertData] using ih k
    | arr xs => simpa [insertManyLoop, List.filter_cons, isValidInsertData] using ih k

/-! ### Lemmas about the vector utilities and the similarity search -/

lemma sqrt_eval {x y : ℝ} (hy : 0 ≤ y) (h : x = y ^ 2) : Real.sqrt x = y := by
  rw [h, Real.sqrt_sq hy]

lemma magnitude_nil : magnitude [] = 0 := by
  simp [magnitude]

lemma cosineSimilarity_nil_left (e : List ℝ) : cosineSimilarity [] e = 0 := by
  rw [cosineSimilarity, if_pos (Or.inl magnitude_nil)]

lemma cosineSimilarity_eval (a b : List ℝ) (hlen : a.length = b.length)
    (ha : magnitude a ≠ 0) (hb : magnitude b ≠ 0) :
    cosineSimilarity a b = dotVal a b / (magnitude a * magnitude b) := by
  rw [cosineSimilarity, if_neg (by push_neg; exact ⟨ha, hb, hlen⟩), dotProduct,
    if_neg (by simp [hlen])]

lemma passesB_nil (r : EmbeddingRecord) : passesB [] r = false := by
  cases hemb : r.embedding with
  | none => simp [passesB, hemb]
  | some e =>
    have hn : ¬ SIMILARITY_THRESHOLD ≤ cosineSimilarity [] e := by
      rw [cosineSimilarity_nil_left, SIMILARITY_THRESHOLD]
      norm_num
    simp [passesB, hemb, hn]

lemma passesB_true_iff (q : List ℝ) (r : EmbeddingRecord) :
    passesB q r = true ↔ passes q r := by
  cases hemb : r.embedding with
  | none => simp [passesB, hemb, passes]
  | some e => simp [passesB, hemb, passes]

lemma searchLoop_eq_filter (q : List ℝ) :
    ∀ rs : List EmbeddingRecord, searchLoop q rs = rs.filter (passesB q) := by
  intro rs
  induction rs with
  | nil => simp [searchLoop]
  | cons r rest ih =>
    cases hemb : r.embedding with
    | none => simp [searchLoop, hemb, List.filter_cons, passesB, ih]
    | some e =>
      by_cases hlen : e.length = q.length
      · by_cases hsim : SIMILARITY_THRESHOLD ≤ cosineSimilarity q e
        · simp [searchLoop, hemb, hlen, hsim, List.filter_cons, passesB, ih]
        · simp [searchLoop, hemb, hlen, hsim, List.filter_cons, passesB, ih]
      · simp [searchLoop, hemb, hlen, List.filter_cons, passesB, ih]

lemma filter_passesB_nil (rs : List EmbeddingRecord) : rs.filter (passesB []) = [] := by
  induction rs with
  | nil => rfl
  | cons r rest ih => simp [List.filter_cons, passesB_nil, ih]

/-! ### Lemmas about the document processor -/

lemma findRelevantContent_eq (em : String → List ℝ) (table : List JValue) (q : String) :
    findRelevantContent em table q =
      if (generateEmbedding em q).length = 0 then none
      else if (validEmbRecs table).length = 0 then none
      else if (((validEmbRecs table).map toEmbeddingRecord).filter
          (passesB (generateEmbedding em q))).length = 0 then none
      else some ⟨((validEmbRecs table).map toEmbeddingRecord).filter
          (passesB (generateEmbedding em q))⟩ := by
  rw [findRelevantContent]
  by_cases h1 : (generateEmbedding em q).length = 0
  · simp [h1]
  · rw [if_neg h1, if_neg h1]
    by_cases h2 : (validEmbRecs table).length = 0
    · simp [h2]
    · rw [if_neg h2, if_neg h2, findMostSimilar,
        if_neg (by simp [h1, h2]), searchLoop_eq_filter]

lemma chunkText_ne_nil (value : String) (cs ov : Nat) (h : ov < cs) (hne : value ≠ "") :
    chunkText value cs ov h ≠ [] := by
  have hlen : 0 < value.toList.length := by
    rcases Nat.eq_zero_or_pos value.toList.length with hz | hp
    · exact absurd (String.ext (List.length_eq_zero.mp hz)) hne
    · exact hp
  rw [chunkText, chunkLoop_unfold, if_pos hlen]
  simp

/-! ### Claim theorems -/

/-- C1: findMostSimilar compares the query vector against every stored
record whose embedding is present and has the query's dimension (others
are skipped) and returns exactly the records whose cosine similarity
reaches the fixed threshold 0.5, as a filter of the stored list; when it
returns null (empty query vector or empty store) the set of qualifying
records is empty as well. -/
theorem findMostSimilar_filters_by_threshold (q : List ℝ) (rs : List EmbeddingRecord) :
    (∀ l, findMostSimilar q rs = some l → l = rs.filter (passesB q)) ∧
    (findMostSimilar q rs = none → rs.filter (passesB q) = []) ∧
    (∀ r, passesB q r = true ↔
      ∃ e, r.embedding = some e ∧ e.length = q.length ∧ (0.5 : ℝ) ≤ cosineSimilarity q e) := by
  refine ⟨?_, ?_, ?_⟩
  · intro l hl
    rw [findMostSimilar] at hl
    by_cases hc : q.length = 0 ∨ rs.length = 0
    · rw [if_pos hc] at hl
      exact absurd hl (by simp)
    · rw [if_neg hc] at hl
      have hinj := Option.some.inj hl
      rw [← hinj, searchLoop_eq_filter]
  · intro hn
    by_cases hc : q.length = 0 ∨ rs.length = 0
    · cases hc with
      | inl hq =>
        have hqnil : q = [] := List.eq_nil_of_length_eq_zero hq
        rw [hqnil]
        exact filter_passesB_nil rs
      | inr hrs =>
        have hrsnil : rs = [] := List.eq_nil_of_length_eq_zero hrs
        rw [hrsnil]
        rfl
    · rw [findMostSimilar, if_neg hc] at hn
      exact absurd hn (by simp)
  · intro r
    rw [passesB_true_iff]
    rw [passes, SIMILARITY_THRESHOLD]

/-- Witness for C1 at a concrete input: the one-record store with
embedding [1] against the query [1] (similarity 1) is returned in full,
i.e. equals its own threshold filter. -/
theorem findMostSimilar_filters_by_threshold_witness :
    [({ id := "e1", resourceId := "r1", contentChunk := "c1",
        embedding := some [(1 : ℝ)] } : EmbeddingRecord)] =
      List.filter (passesB [(1 : ℝ)])
        [({ id := "e1", resourceId := "r1", contentChunk := "c1",
            embedding := some [(1 : ℝ)] } : EmbeddingRecord)] := by
  have m1 : magnitude [(1 : ℝ)] = 1 := by simp [magnitude]
  have c11 : cosineSimilarity [(1 : ℝ)] [(1 : ℝ)] = 1 := by
    rw [cosineSimilarity_eval _ _ rfl (by rw [m1]; norm_num) (by rw [m1]; norm_num), m1]
    simp [dotVal]
  apply (findMostSimilar_filters_by_threshold [(1 : ℝ)]
    [({ id := "e1", resourceId := "r1", contentChunk := "c1",
        embedding := some [(1 : ℝ)] } : EmbeddingRecord)]).1
  rw [findMostSimilar, if_neg (by simp)]
  have hsim : SIMILARITY_THRESHOLD ≤ cosineSimilarity [(1 : ℝ)] [(1 : ℝ)] := by
    rw [c11, SIMILARITY_THRESHOLD]
    norm_num
  simp [searchLoop, hsim]

/-- C8: cosineSimilarity is total: when the dimensions differ or either
magnitude is zero it returns 0; otherwise it returns the dot product
divided by the product of the magnitudes, and dotProduct never reaches its
error branch when the dimensions agree (so the exception is unreachable
from cosineSimilarity). -/
theorem cosineSimilarity_total_spec (a b : List ℝ) :
    (a.length = b.length → dotProduct a b = Except.ok (dotVal a b)) ∧
    (magnitude a = 0 ∨ magnitude b = 0 ∨ a.length ≠ b.length → cosineSimilarity a b = 0) ∧
    (a.length = b.length → magnitude a ≠ 0 → magnitude b ≠ 0 →
      cosineSimilarity a b = dotVal a b / (magnitude a * magnitude b)) := by
  refine ⟨?_, ?_, ?_⟩
  · intro h
    rw [dotProduct, if_neg (by simp [h])]
  · intro h
    rw [cosineSimilarity, if_pos h]
  · intro hlen ha hb
    exact cosineSimilarity_eval a b hlen ha hb

/-- Witness for C8 at a concrete input: on the equal-length vectors [1]
and [1] with nonzero magnitudes, cosineSimilarity takes the division
branch. -/
theorem cosineSimilarity_total_spec_witness :
    cosineSimilarity [(1 : ℝ)] [(1 : ℝ)] =
      dotVal [(1 : ℝ)] [(1 : ℝ)] / (magnitude [(1 : ℝ)] * magnitude [(1 : ℝ)]) := by
  have m1 : magnitude [(1 : ℝ)] = 1 := by simp [magnitude]
  exact (cosineSimilarity_total_spec [(1 : ℝ)] [(1 : ℝ)]).2.2 rfl
    (by rw [m1]; norm_num) (by rw [m1]; norm_num)

/-- C3: for every table state and every valid input (a plain object with
no id property), insert appends exactly one new record — the input fields
plus the generated id — at the end of the table: the previously stored
records keep their positions, the length grows by one, and the returned
record is the appended one. -/
theorem insert_append_only (table : List JValue) (fields : List (String × JValue)) (newId : String)
    (h : hasOwn fields "id" = false) :
    insert table (JValue.obj fields) newId =
      Except.ok (JValue.obj (fields ++ [("id", JValue.str newId)]),
        table ++ [JValue.obj (fields ++ [("id", JValue.str newId)])]) ∧
    (table ++ [JValue.obj (fields ++ [("id", JValue.str newId)])]).take table.length = table ∧
    (table ++ [JValue.obj (fields ++ [("id", JValue.str newId)])]).length = table.length + 1 := by
  exact ⟨insert_valid table fields newId h, List.take_left table _, by simp⟩

/-- Witness for C3 at a concrete input: inserting one object into a
one-record table. -/
theorem insert_append_only_witness :
    insert [JValue.str "old"] (JValue.obj [("content", JValue.str "text")]) "u1" =
      Except.ok (JValue.obj [("content", JValue.str "text"), ("id", JValue.str "u1")],
        [JValue.str "old",
         JValue.obj [("content", JValue.str "text"), ("id", JValue.str "u1")]]) := by
  exact (insert_append_only [JValue.str "old"] [("content", JValue.str "text")] "u1" rfl).1

/-- C6: insert/getById round trip: if the generated id is a nonempty
string matching no previously stored record, then getById on the table
written by insert returns exactly the inserted record. -/
theorem insert_getById_roundtrip (table : List JValue) (fields : List (String × JValue))
    (newId : String) (hvalid : hasOwn fields "id" = false) (hid : newId ≠ "")
    (hfresh : ∀ r ∈ table, idMatches r newId = false) :
    ∀ rec t', insert table (JValue.obj fields) newId = Except.ok (rec, t') →
      getById t' newId = some rec := by
  intro rec t' hins
  rw [insert_valid table fields newId hvalid] at hins
  simp only [Except.ok.injEq, Prod.mk.injEq] at hins
  obtain ⟨hrec, ht⟩ := hins
  rw [← hrec, ← ht, getById, if_neg hid, List.find?_append]
  have h1 : table.find? (fun r => idMatches r newId) = none := by
    rw [List.find?_eq_none]
    intro x hx
    simp [hfresh x hx]
  rw [h1]
  simp [List.find?, idMatches_new]

/-- Witness for C6 at a concrete input: a fresh insert into the empty
table is found again under its generated id. -/
theorem insert_getById_roundtrip_witness :
    getById [JValue.obj [("a", JValue.bool true), ("id", JValue.str "u1")]] "u1" =
      some (JValue.obj [("a", JValue.bool true), ("id", JValue.str "u1")]) := by
  exact insert_getById_roundtrip [] [("a", JValue.bool true)] "u1" rfl (by decide)
    (by intro r hr; cases hr) _ _ rfl

/-- C10: insert rejects any input that is not a plain object or that
already has an id property, with an error that does not depend on the
table (the check precedes any read or write), while insertMany silently
skips exactly those inputs, returns precisely the records appended for
the remaining valid elements (in order, with sequentially generated ids),
and performs no write at all when no element is valid. -/
theorem insert_throws_insertMany_skips
    (table : List JValue) (d : JValue) (newId : String)
    (dataArray : List JValue) (ids : Nat → String)
    (hbad : isValidInsertData d = false) :
    (∃ msg, insert table d newId = Except.error msg) ∧
    (∀ t', insert t' d newId = insert table d newId) ∧
    (insertMany table dataArray ids).1 =
      (dataArray.filter isValidInsertData).mapIdx (fun j a => addId a (ids j)) ∧
    (dataArray.filter isValidInsertData = [] → (insertMany table dataArray ids).2 = none) ∧
    (dataArray.filter isValidInsertData ≠ [] →
      (insertMany table dataArray ids).2 =
        some (table ++ (insertMany table dataArray ids).1)) := by
  have hloop : insertManyLoop ids 0 dataArray =
      (dataArray.filter isValidInsertData).mapIdx (fun j a => addId a (ids j)) := by
    rw [insertManyLoop_eq_mapIdx]
    exact mapIdx_ext _ _ (fun i a => by rw [Nat.zero_add]) _
  refine ⟨?_, ?_, ?_, ?_, ?_⟩
  · cases d with
    | obj fields =>
      simp only [isValidInsertData, Bool.not_eq_false'] at hbad
      exact ⟨_, by rw [insert, if_pos hbad]⟩
    | null => exact ⟨_, rfl⟩
    | bool b => exact ⟨_, rfl⟩
    | num x => exact ⟨_, rfl⟩
    | str t => exact ⟨_, rfl⟩
    | arr xs => exact ⟨_, rfl⟩
  · intro t'
    cases d with
    | obj fields =>
      simp only [isValidInsertData, Bool.not_eq_false'] at hbad
      rw [insert, insert, if_pos hbad, if_pos hbad]
    | null => rfl
    | bool b => rfl
    | num x => rfl
    | str t => rfl
    | arr xs => rfl
  · simp only [insertMany]
    exact hloop
  · intro hnil
    simp only [insertMany, hloop, hnil, List.mapIdx_nil, List.length_nil]
    rfl
  · intro hne
    have hlen : 0 < ((dataArray.filter isValidInsertData).mapIdx
        (fun j a => addId a (ids j))).length := by
      rw [List.length_mapIdx, List.length_pos]
      exact hne
    simp only [insertMany, hloop]
    rw [if_pos hlen]

/-- Witness for C10 at a concrete input: inserting an array value is
rejected, batch-inserting a null alongside one valid object appends
exactly the valid one. -/
theorem insert_throws_insertMany_skips_witness :
    (∃ msg, insert [] (JValue.arr []) "u" = Except.error msg) ∧
    (∀ t', insert t' (JValue.arr []) "u" = insert [] (JValue.arr []) "u") ∧
    (insertMany [] [JValue.null, JValue.obj [("x", JValue.str "v")]] (fun _ => "g0")).1 =
      ([JValue.null, JValue.obj [("x", JValue.str "v")]].filter
        isValidInsertData).mapIdx (fun j a => addId a ((fun _ => "g0") j)) ∧
    ([JValue.null, JValue.obj [("x", JValue.str "v")]].filter isValidInsertData = [] →
      (insertMany [] [JValue.null, JValue.obj [("x", JValue.str "v")]] (fun _ => "g0")).2 = none) ∧
    ([JValue.null, JValue.obj [("x", JValue.str "v")]].filter isValidInsertData ≠ [] →
      (insertMany [] [JValue.null, JValue.obj [("x", JValue.str "v")]] (fun _ => "g0")).2 =
        some ([] ++ (insertMany [] [JValue.null, JValue.obj [("x", JValue.str "v")]]
          (fun _ => "g0")).1)) := by
  exact insert_throws_insertMany_skips [] (JValue.arr []) "u"
    [JValue.null, JValue.obj [("x", JValue.str "v")]] (fun _ => "g0") rfl

/-- C4 counterexample: on the ten-character input "aaaaaaaaaa" the chunker
(default chunkSize 500, overlap 50) produces a single chunk of length 10,
not of length exactly 500 as claimed. -/
theorem chunkText_fixed_size_cex :
    chunkText "aaaaaaaaaa" 500 50 (by omega) = ["aaaaaaaaaa"] ∧
    ("aaaaaaaaaa" : String).length ≠ 500 := by
  constructor
  · rw [chunkText, chunkLoop_unfold, if_pos (by decide), chunkLoop_unfold, if_neg (by decide)]
    decide
  · decide

/-- C4 (amended): with the defaults (chunkSize 500, overlap 50) the k-th
chunk is the substring of the input starting at position 450·k of length
min 500 (remaining length); whenever a chunk has the full 500 characters,
a next chunk exists and the two share exactly the 50 characters at
positions 450·k + 450 … 450·k + 499. -/
theorem chunkText_default_spec (s : String) (k : Nat) (hk : 450 * k < s.toList.length) :
    (chunkText s 500 50 (by omega))[k]? =
      some (String.mk ((s.toList.drop (450 * k)).take 500)) ∧
    ((s.toList.drop (450 * k)).take 500).length = min 500 (s.toList.length - 450 * k) ∧
    (450 * k + 500 ≤ s.toList.length →
      ((s.toList.drop (450 * k)).take 500).drop 450 =
        ((s.toList.drop (450 * (k + 1))).take 500).take 50 ∧
      (((s.toList.drop (450 * k)).take 500).drop 450).length = 50 ∧
      450 * (k + 1) < s.toList.length) := by
  refine ⟨?_, ?_, ?_⟩
  · rw [chunkText, List.getElem?_map,
      chunkLoop_getElem s.toList 500 (500 - 50) (by omega) k 0]
    rw [if_pos (by omega), Nat.zero_add, jsSubstring_eq_drop_take]
    rfl
  · simp [List.length_take, List.length_drop]
  · intro hfull
    have hshared : ((s.toList.drop (450 * k)).take 500).drop 450 =
        (s.toList.drop (450 * k + 450)).take 50 := by
      rw [List.drop_take, List.drop_drop]
    refine ⟨?_, ?_, by omega⟩
    · rw [hshared, List.take_take]
      have harith : 450 * (k + 1) = 450 * k + 450 := by ring
      rw [harith]
      norm_num
    · rw [hshared]
      simp only [List.length_take, List.length_drop]
      omega

/-- Witness for C4 (amended) at a concrete input: the first chunk of "ab"
is the substring starting at position 0. -/
theorem chunkText_default_spec_witness :
    (chunkText "ab" 500 50 (by omega))[0]? =
      some (String.mk (("ab".toList.drop (450 * 0)).take 500)) ∧
    (("ab".toList.drop (450 * 0)).take 500).length = min 500 ("ab".toList.length - 450 * 0) ∧
    (450 * 0 + 500 ≤ "ab".toList.length →
      (("ab".toList.drop (450 * 0)).take 500).drop 450 =
        (("ab".toList.drop (450 * (0 + 1))).take 500).take 50 ∧
      ((("ab".toList.drop (450 * 0)).take 500).drop 450).length = 50 ∧
      450 * (0 + 1) < "ab".toList.length) := by
  exact chunkText_default_spec "ab" 0 (by decide)

/-- C9: for chunkSize strictly greater than overlap the chunking loop
terminates — some finite fuel makes the instrumented loop return the same
chunks — and on an input of length n it produces exactly
⌈n / (chunkSize − overlap)⌉ chunks; every character position j of the
input is covered: it falls inside the span of the ⌊j / step⌋-th chunk,
which is the substring of the input starting at step·k of length at most
chunkSize. -/
theorem chunking_terminates_and_covers (s : String) (chunkSize overlap : Nat)
    (h : overlap < chunkSize) :
    (∃ fuel r, chunkLoopFuel s.toList chunkSize (chunkSize - overlap) 0 fuel = some r ∧
      chunkText s chunkSize overlap h = r.map String.mk) ∧
    (chunkText s chunkSize overlap h).length =
      (s.toList.length + (chunkSize - overlap) - 1) / (chunkSize - overlap) ∧
    (∀ j < s.toList.length, ∃ k, k < (chunkText s chunkSize overlap h).length ∧
      (chunkSize - overlap) * k ≤ j ∧ j < (chunkSize - overlap) * k + chunkSize ∧
      (chunkText s chunkSize overlap h)[k]? =
        some (String.mk ((s.toList.drop ((chunkSize - overlap) * k)).take chunkSize))) := by
  have hstep : 0 < chunkSize - overlap := by omega
  refine ⟨?_, ?_, ?_⟩
  · refine ⟨s.toList.length + 1, chunkLoop s.toList chunkSize (chunkSize - overlap) hstep 0,
      ?_, ?_⟩
    · exact chunkLoopFuel_eq s.toList chunkSize (chunkSize - overlap) hstep s.toList.length 0
        (by simpa using Nat.le_mul_of_pos_right s.toList.length hstep)
    · rw [chunkText]
  · rw [chunkText, List.length_map,
      chunkLoop_length s.toList chunkSize (chunkSize - overlap) hstep s.toList.length 0
        (by omega), Nat.sub_zero]
  · intro j hj
    have hdivle : (chunkSize - overlap) * (j / (chunkSize - overlap)) ≤ j :=
      Nat.mul_div_le j (chunkSize - overlap)
    refine ⟨j / (chunkSize - overlap), ?_, hdivle, ?_, ?_⟩
    · rw [chunkText, List.length_map,
        chunkLoop_length s.toList chunkSize (chunkSize - overlap) hstep s.toList.length 0
          (by omega), Nat.sub_zero]
      have h1 : j / (chunkSize - overlap) ≤ (s.toList.length - 1) / (chunkSize - overlap) :=
        Nat.div_le_div_right (by omega)
      have h2 : s.toList.length + (chunkSize - overlap) - 1 =
          (s.toList.length - 1) + (chunkSize - overlap) := by omega
      rw [h2, Nat.add_div_right _ hstep]
      omega
    · have hmod := Nat.mod_lt j hstep
      have hdm := Nat.div_add_mod j (chunkSize - overlap)
      omega
    · rw [chunkText, List.getElem?_map,
        chunkLoop_getElem s.toList chunkSize (chunkSize - overlap) hstep
          (j / (chunkSize - overlap)) 0]
      rw [if_pos (by omega), Nat.zero_add, jsSubstring_eq_drop_take]
      rfl

/-- Witness for C9 at a concrete input: the two-character input "ab" with
chunkSize 2 and overlap 1. -/
theorem chunking_terminates_and_covers_witness :
    (∃ fuel r, chunkLoopFuel "ab".toList 2 (2 - 1) 0 fuel = some r ∧
      chunkText "ab" 2 1 (by omega) = r.map String.mk) ∧
    (chunkText "ab" 2 1 (by omega)).length = ("ab".toList.length + (2 - 1) - 1) / (2 - 1) ∧
    (∀ j < "ab".toList.length, ∃ k, k < (chunkText "ab" 2 1 (by omega)).length ∧
      (2 - 1) * k ≤ j ∧ j < (2 - 1) * k + 2 ∧
      (chunkText "ab" 2 1 (by omega))[k]? =
        some (String.mk (("ab".toList.drop ((2 - 1) * k)).take 2))) := by
  exact chunking_terminates_and_covers "ab" 2 1 (by omega)

/-- C7: findRelevantContent returns null exactly when the query embedding
is empty (in particular the empty query yields the empty vector without
consulting the model), when no stored record passes the validity filter
(object with string resourceId, string contentChunk, array embedding), or
when no valid record passes the similarity threshold; otherwise it returns
the non-empty list of ranked chunks. -/
theorem findRelevantContent_null_characterization (em : String → List ℝ) (table : List JValue)
    (q : String) :
    (findRelevantContent em table q = none ↔
      generateEmbedding em q = [] ∨ validEmbRecs table = [] ∨
        ((validEmbRecs table).map toEmbeddingRecord).filter
          (passesB (generateEmbedding em q)) = []) ∧
    (∀ res, findRelevantContent em table q = some res →
      res.chunks = ((validEmbRecs table).map toEmbeddingRecord).filter
        (passesB (generateEmbedding em q)) ∧ res.chunks ≠ []) ∧
    generateEmbedding em "" = [] := by
  have heq := findRelevantContent_eq em table q
  by_cases h1 : (generateEmbedding em q).length = 0
  · refine ⟨?_, ?_, by simp [generateEmbedding]⟩
    · rw [heq, if_pos h1]
      simp [List.eq_nil_of_length_eq_zero h1]
    · intro res hres
      rw [heq, if_pos h1] at hres
      exact absurd hres (by simp)
  · by_cases h2 : (validEmbRecs table).length = 0
    · refine ⟨?_, ?_, by simp [generateEmbedding]⟩
      · rw [heq, if_neg h1, if_pos h2]
        simp [List.eq_nil_of_length_eq_zero h2]
      · intro res hres
        rw [heq, if_neg h1, if_pos h2] at hres
        exact absurd hres (by simp)
    · by_cases h3 : (((validEmbRecs table).map toEmbeddingRecord).filter
          (passesB (generateEmbedding em q))).length = 0
      · refine ⟨?_, ?_, by simp [generateEmbedding]⟩
        · rw [heq, if_neg h1, if_neg h2, if_pos h3]
          simp [List.eq_nil_of_length_eq_zero h3]
        · intro res hres
          rw [heq, if_neg h1, if_neg h2, if_pos h3] at hres
          exact absurd hres (by simp)
      · refine ⟨?_, ?_, by simp [generateEmbedding]⟩
        · rw [heq, if_neg h1, if_neg h2, if_neg h3]
          constructor
          · intro hcontra
            exact absurd hcontra (by simp)
          · intro hor
            rcases hor with hq | hv | hf
            · exact absurd (by rw [hq]; rfl) h1
            · exact absurd (by rw [hv]; rfl) h2
            · exact absurd (by rw [hf]; rfl) h3
        · intro res hres
          rw [heq, if_neg h1, if_neg h2, if_neg h3] at hres
          have hchunks : res.chunks = ((validEmbRecs table).map toEmbeddingRecord).filter
              (passesB (generateEmbedding em q)) := by
            rw [← Option.some.inj hres]
          refine ⟨hchunks, ?_⟩
          rw [hchunks]
          intro hcon
          exact h3 (by rw [hcon]; rfl)

/-- Witness for C7 at a concrete input: a one-record store whose record
matches the query with similarity 1; the returned chunks are the
threshold filter, which is non-empty. -/
theorem findRelevantContent_null_characterization_witness :
    (SearchServiceResult.mk [EmbeddingRecord.mk "e1" "r1" "c" (some [(1 : ℝ)])]).chunks =
      ((validEmbRecs [JValue.obj [("id", JValue.str "e1"), ("resourceId", JValue.str "r1"),
          ("contentChunk", JValue.str "c"),
          ("embedding", JValue.arr [JValue.num 1])]]).map toEmbeddingRecord).filter
        (passesB (generateEmbedding (fun _ => [(1 : ℝ)]) "hello")) ∧
    (SearchServiceResult.mk [EmbeddingRecord.mk "e1" "r1" "c" (some [(1 : ℝ)])]).chunks ≠ [] := by
  have hq : generateEmbedding (fun _ => [(1 : ℝ)]) "hello" = [(1 : ℝ)] := by
    simp [generateEmbedding]
  have m1 : magnitude [(1 : ℝ)] = 1 := by simp [magnitude]
  have c11 : cosineSimilarity [(1 : ℝ)] [(1 : ℝ)] = 1 := by
    rw [cosineSimilarity_eval _ _ rfl (by rw [m1]; norm_num) (by rw [m1]; norm_num), m1]
    simp [dotVal]
  have hpass : passesB [(1 : ℝ)] (EmbeddingRecord.mk "e1" "r1" "c" (some [(1 : ℝ)])) = true :=
    (passesB_true_iff _ _).mpr ⟨[(1 : ℝ)], rfl, rfl, by
      rw [c11, SIMILARITY_THRESHOLD]; norm_num⟩
  have hvalid : validEmbRecs [JValue.obj [("id", JValue.str "e1"),
      ("resourceId", JValue.str "r1"), ("contentChunk", JValue.str "c"),
      ("embedding", JValue.arr [JValue.num 1])]] =
      [JValue.obj [("id", JValue.str "e1"), ("resourceId", JValue.str "r1"),
        ("contentChunk", JValue.str "c"), ("embedding", JValue.arr [JValue.num 1])]] := rfl
  have hmap : [JValue.obj [("id", JValue.str "e1"), ("resourceId", JValue.str "r1"),
      ("contentChunk", JValue.str "c"),
      ("embedding", JValue.arr [JValue.num 1])]].map toEmbeddingRecord =
      [EmbeddingRecord.mk "e1" "r1" "c" (some [(1 : ℝ)])] := rfl
  have hfilter : [EmbeddingRecord.mk "e1" "r1" "c" (some [(1 : ℝ)])].filter
      (passesB [(1 : ℝ)]) = [EmbeddingRecord.mk "e1" "r1" "c" (some [(1 : ℝ)])] := by
    simp [List.filter_cons, hpass]
  apply (findRelevantContent_null_characterization (fun _ => [(1 : ℝ)])
    [JValue.obj [("id", JValue.str "e1"), ("resourceId", JValue.str "r1"),
      ("contentChunk", JValue.str "c"), ("embedding", JValue.arr [JValue.num 1])]]
    "hello").2.1
  rw [findRelevantContent_eq, hq, hvalid, hmap, hfilter]
  simp

/-- C2 counterexample: a two-record store in which the first stored record
has similarity 3/5 to the query and the second similarity 1.  The search
returns them in storage order, so a record with strictly smaller
similarity precedes one with larger similarity, refuting the claim that
the returned list is ranked by similarity. -/
theorem search_ranked_by_similarity_cex :
    findRelevantContent (fun _ => [(1 : ℝ), 0])
      [JValue.obj [("id", JValue.str "a"), ("resourceId", JValue.str "r"),
        ("contentChunk", JValue.str "A"),
        ("embedding", JValue.arr [JValue.num 3, JValue.num 4])],
       JValue.obj [("id", JValue.str "b"), ("resourceId", JValue.str "r"),
        ("contentChunk", JValue.str "B"),
        ("embedding", JValue.arr [JValue.num 2, JValue.num 0])]] "query" =
      some (SearchServiceResult.mk
        [EmbeddingRecord.mk "a" "r" "A" (some [(3 : ℝ), 4]),
         EmbeddingRecord.mk "b" "r" "B" (some [(2 : ℝ), 0])]) ∧
    cosineSimilarity [(1 : ℝ), 0] [(3 : ℝ), 4] <
      cosineSimilarity [(1 : ℝ), 0] [(2 : ℝ), 0] := by
  have m10 : magnitude [(1 : ℝ), 0] = 1 := by
    have hsum : (([(1 : ℝ), 0]).map (fun x => x * x)).sum = 1 := by norm_num
    rw [magnitude, hsum, Real.sqrt_one]
  have m34 : magnitude [(3 : ℝ), 4] = 5 := by
    have hsum : (([(3 : ℝ), 4]).map (fun x => x * x)).sum = 25 := by norm_num
    rw [magnitude, hsum]
    exact sqrt_eval (by norm_num) (by norm_num)
  have m20 : magnitude [(2 : ℝ), 0] = 2 := by
    have hsum : (([(2 : ℝ), 0]).map (fun x => x * x)).sum = 4 := by norm_num
    rw [magnitude, hsum]
    exact sqrt_eval (by norm_num) (by norm_num)
  have cA : cosineSimilarity [(1 : ℝ), 0] [(3 : ℝ), 4] = 3 / 5 := by
    rw [cosineSimilarity_eval [(1 : ℝ), 0] [(3 : ℝ), 4] rfl
      (by rw [m10]; norm_num) (by rw [m34]; norm_num), m10, m34]
    norm_num [dotVal]
  have cB : cosineSimilarity [(1 : ℝ), 0] [(2 : ℝ), 0] = 1 := by
    rw [cosineSimilarity_eval [(1 : ℝ), 0] [(2 : ℝ), 0] rfl
      (by rw [m10]; norm_num) (by rw [m20]; norm_num), m10, m20]
    norm_num [dotVal]
  have hpassA : passesB [(1 : ℝ), 0] (EmbeddingRecord.mk "a" "r" "A" (some [(3 : ℝ), 4])) =
      true :=
    (passesB_true_iff _ _).mpr ⟨[(3 : ℝ), 4], rfl, rfl, by
      rw [cA, SIMILARITY_THRESHOLD]; norm_num⟩
  have hpassB : passesB [(1 : ℝ), 0] (EmbeddingRecord.mk "b" "r" "B" (some [(2 : ℝ), 0])) =
      true :=
    (passesB_true_iff _ _).mpr ⟨[(2 : ℝ), 0], rfl, rfl, by
      rw [cB, SIMILARITY_THRESHOLD]; norm_num⟩
  refine ⟨?_, ?_⟩
  · have hq : generateEmbedding (fun _ => [(1 : ℝ), 0]) "query" = [(1 : ℝ), 0] := by
      simp [generateEmbedding]
    have hvalid : validEmbRecs
        [JValue.obj [("id", JValue.str "a"), ("resourceId", JValue.str "r"),
          ("contentChunk", JValue.str "A"),
          ("embedding", JValue.arr [JValue.num 3, JValue.num 4])],
         JValue.obj [("id", JValue.str "b"), ("resourceId", JValue.str "r"),
          ("contentChunk", JValue.str "B"),
          ("embedding", JValue.arr [JValue.num 2, JValue.num 0])]] =
        [JValue.obj [("id", JValue.str "a"), ("resourceId", JValue.str "r"),
          ("contentChunk", JValue.str "A"),
          ("embedding", JValue.arr [JValue.num 3, JValue.num 4])],
         JValue.obj [("id", JValue.str "b"), ("resourceId", JValue.str "r"),
          ("contentChunk", JValue.str "B"),
          ("embedding", JValue.arr [JValue.num 2, JValue.num 0])]] := rfl
    have hmap : [JValue.obj [("id", JValue.str "a"), ("resourceId", JValue.str "r"),
          ("contentChunk", JValue.str "A"),
          ("embedding", JValue.arr [JValue.num 3, JValue.num 4])],
         JValue.obj [("id", JValue.str "b"), ("resourceId", JValue.str "r"),
          ("contentChunk", JValue.str "B"),
          ("embedding", JValue.arr [JValue.num 2, JValue.num 0])]].map toEmbeddingRecord =
        [EmbeddingRecord.mk "a" "r" "A" (some [(3 : ℝ), 4]),
         EmbeddingRecord.mk "b" "r" "B" (some [(2 : ℝ), 0])] := rfl
    have hfilter : [EmbeddingRecord.mk "a" "r" "A" (some [(3 : ℝ), 4]),
        EmbeddingRecord.mk "b" "r" "B" (some [(2 : ℝ), 0])].filter (passesB [(1 : ℝ), 0]) =
        [EmbeddingRecord.mk "a" "r" "A" (some [(3 : ℝ), 4]),
         EmbeddingRecord.mk "b" "r" "B" (some [(2 : ℝ), 0])] := by
      simp [List.filter_cons, hpassA, hpassB]
    rw [findRelevantContent_eq, hq, hvalid, hmap, hfilter]
    simp
  · rw [cA, cB]
    norm_num

/-- C2 (amended): the chunk list returned by the search is exactly the
threshold-passing valid stored records in storage order — the
order-preserving filter of the valid stored records, hence a sublist of
them — rather than being sorted by similarity. -/
theorem search_results_in_storage_order (em : String → List ℝ) (table : List JValue)
    (q : String) :
    ∀ res, findRelevantContent em table q = some res →
      res.chunks = ((validEmbRecs table).map toEmbeddingRecord).filter
        (passesB (generateEmbedding em q)) ∧
      List.Sublist res.chunks ((validEmbRecs table).map toEmbeddingRecord) := by
  intro res hres
  rw [findRelevantContent_eq] at hres
  by_cases h1 : (generateEmbedding em q).length = 0
  · rw [if_pos h1] at hres
    exact absurd hres (by simp)
  · rw [if_neg h1] at hres
    by_cases h2 : (validEmbRecs table).length = 0
    · rw [if_pos h2] at hres
      exact absurd hres (by simp)
    · rw [if_neg h2] at hres
      by_cases h3 : (((validEmbRecs table).map toEmbeddingRecord).filter
          (passesB (generateEmbedding em q))).length = 0
      · rw [if_pos h3] at hres
        exact absurd hres (by simp)
      · rw [if_neg h3] at hres
        have hinj := Option.some.inj hres
        subst hinj
        exact ⟨rfl, List.filter_sublist _⟩

/-- Witness for C2 (amended) at a concrete input: on a one-record store
that matches the query, the returned chunk list equals the threshold
filter of the stored records, in storage order. -/
theorem search_results_in_storage_order_witness :
    (SearchServiceResult.mk [EmbeddingRecord.mk "e1" "r1" "c" (some [(1 : ℝ)])]).chunks =
      ((validEmbRecs [JValue.obj [("id", JValue.str "e1"), ("resourceId", JValue.str "r1"),
        ("contentChunk", JValue.str "c"),
        ("embedding", JValue.arr [JValue.num 1])]]).map toEmbeddingRecord).filter
        (passesB (generateEmbedding (fun _ => [(1 : ℝ)]) "hello")) ∧
    List.Sublist
      (SearchServiceResult.mk [EmbeddingRecord.mk "e1" "r1" "c" (some [(1 : ℝ)])]).chunks
      ((validEmbRecs [JValue.obj [("id", JValue.str "e1"), ("resourceId", JValue.str "r1"),
        ("contentChunk", JValue.str "c"),
        ("embedding", JValue.arr [JValue.num 1])]]).map toEmbeddingRecord) := by
  have m1 : magnitude [(1 : ℝ)] = 1 := by simp [magnitude]
  have c11 : cosineSimilarity [(1 : ℝ)] [(1 : ℝ)] = 1 := by
    rw [cosineSimilarity_eval _ _ rfl (by rw [m1]; norm_num) (by rw [m1]; norm_num), m1]
    simp [dotVal]
  have hpass : passesB [(1 : ℝ)] (EmbeddingRecord.mk "e1" "r1" "c" (some [(1 : ℝ)])) = true :=
    (passesB_true_iff _ _).mpr ⟨[(1 : ℝ)], rfl, rfl, by
      rw [c11, SIMILARITY_THRESHOLD]; norm_num⟩
  apply search_results_in_storage_order (fun _ => [(1 : ℝ)])
    [JValue.obj [("id", JValue.str "e1"), ("resourceId", JValue.str "r1"),
      ("contentChunk", JValue.str "c"), ("embedding", JValue.arr [JValue.num 1])]] "hello"
    (SearchServiceResult.mk [EmbeddingRecord.mk "e1" "r1" "c" (some [(1 : ℝ)])])
  have hq : generateEmbedding (fun _ => [(1 : ℝ)]) "hello" = [(1 : ℝ)] := by
    simp [generateEmbedding]
  have hfilter : [EmbeddingRecord.mk "e1" "r1" "c" (some [(1 : ℝ)])].filter
      (passesB [(1 : ℝ)]) = [EmbeddingRecord.mk "e1" "r1" "c" (some [(1 : ℝ)])] := by
    simp [List.filter_cons, hpass]
  rw [findRelevantContent_eq, hq]
  rw [show validEmbRecs [JValue.obj [("id", JValue.str "e1"), ("resourceId", JValue.str "r1"),
    ("contentChunk", JValue.str "c"), ("embedding", JValue.arr [JValue.num 1])]] =
    [JValue.obj [("id", JValue.str "e1"), ("resourceId", JValue.str "r1"),
      ("contentChunk", JValue.str "c"), ("embedding", JValue.arr [JValue.num 1])]] from rfl]
  rw [show [JValue.obj [("id", JValue.str "e1"), ("resourceId", JValue.str "r1"),
    ("contentChunk", JValue.str "c"),
    ("embedding", JValue.arr [JValue.num 1])]].map toEmbeddingRecord =
    [EmbeddingRecord.mk "e1" "r1" "c" (some [(1 : ℝ)])] from rfl]
  rw [hfilter]
  simp

lemma mapIdx_map_comp {α β γ : Type _} (g : α → β) :
    ∀ (l : List α) (f : Nat → β → γ),
      (l.map g).mapIdx f = l.mapIdx (fun i a => f i (g a)) := by
  intro l
  induction l with
  | nil => intro f; simp
  | cons a l ih =>
    intro f
    rw [List.map_cons, List.mapIdx_cons, List.mapIdx_cons, ih]

/-- C5: processPdf on extracted text that is not blank stores exactly one
resource record carrying the full text, stores one embedding record per
chunk of that text — each carrying the chunk, its embedding vector and
the resource id — appended to the embeddings table, and returns the
stored resource together with an embeddings count equal to the number of
embedding records stored (the number of chunks). -/
theorem processPdf_stores_resource_and_chunks (em : String → List ℝ) (resId : String)
    (embIds : Nat → String) (sourceFile fullText : String) (st : DbState)
    (h : jsTrim fullText.toList ≠ []) :
    processPdf em resId embIds sourceFile fullText st =
      Except.ok
        (DbState.mk
          (st.resources ++ [JValue.obj [("content", JValue.str fullText),
            ("sourceFile", JValue.str sourceFile), ("id", JValue.str resId)]])
          (st.embeddings ++ (chunkText fullText 500 50 (by omega)).mapIdx (fun k c =>
            JValue.obj [("resourceId", JValue.str resId), ("contentChunk", JValue.str c),
              ("embedding", JValue.arr ((em c).map JValue.num)),
              ("id", JValue.str (embIds k))])),
         JValue.obj [("content", JValue.str fullText), ("sourceFile", JValue.str sourceFile),
           ("id", JValue.str resId)],
         (chunkText fullText 500 50 (by omega)).length) := by
  have hne : fullText ≠ "" := by
    intro hc
    apply h
    rw [hc]
    rfl
  have hcne : chunkText fullText 500 50 (by omega) ≠ [] := chunkText_ne_nil _ _ _ _ hne
  have hclen : ¬ (chunkText fullText 500 50 (by omega)).length = 0 := by
    simpa [List.length_eq_zero] using hcne
  have hfields : hasOwn [("content", JValue.str fullText),
      ("sourceFile", JValue.str sourceFile)] "id" = false := rfl
  have hgen : generateEmbeddings em fullText 500 50 (by omega) =
      (chunkText fullText 500 50 (by omega)).map (fun c => (c, em c)) := by
    rw [generateEmbeddings, if_neg hne]
    simp only [hclen, if_false]
  rw [processPdf, if_neg h,
    insert_valid st.resources [("content", JValue.str fullText),
      ("sourceFile", JValue.str sourceFile)] resId hfields]
  dsimp only
  rw [hgen, List.length_map, List.map_map]
  rw [if_neg hclen]
  have hfilterall : ((chunkText fullText 500 50 (by omega)).map
      ((fun ce => JValue.obj [("resourceId", JValue.str resId),
        ("contentChunk", JValue.str ce.1),
        ("embedding", JValue.arr (ce.2.map JValue.num))]) ∘
       (fun c => (c, em c)))).filter isValidInsertData =
      (chunkText fullText 500 50 (by omega)).map
      ((fun ce => JValue.obj [("resourceId", JValue.str resId),
        ("contentChunk", JValue.str ce.1),
        ("embedding", JValue.arr (ce.2.map JValue.num))]) ∘
       (fun c => (c, em c))) := by
    rw [List.filter_eq_self]
    intro a ha
    obtain ⟨c, _, rfl⟩ := List.mem_map.mp ha
    rfl
  simp only [insertMany, insertManyLoop_eq_mapIdx, hfilterall, mapIdx_map_comp]
  rw [mapIdx_ext (fun i a => addId (((fun ce => JValue.obj [("resourceId", JValue.str resId),
        ("contentChunk", JValue.str ce.1),
        ("embedding", JValue.arr (ce.2.map JValue.num))]) ∘ (fun c => (c, em c))) a)
        (embIds (0 + i)))
      (fun k c => JValue.obj [("resourceId", JValue.str resId), ("contentChunk", JValue.str c),
        ("embedding", JValue.arr ((em c).map JValue.num)), ("id", JValue.str (embIds k))])
      (fun i a => by simp [addId])]
  rw [List.length_mapIdx, if_pos (Nat.pos_of_ne_zero hclen)]
  simp only [Option.getD_some]
  rfl

/-- Witness for C5 at a concrete input: processing the two-character text
"hi" into an empty store. -/
theorem processPdf_stores_resource_and_chunks_witness :
    processPdf (fun _ => [(1 : ℝ)]) "r1" (fun _ => "e0") "f.pdf" "hi" (DbState.mk [] []) =
      Except.ok
        (DbState.mk
          ([] ++ [JValue.obj [("content", JValue.str "hi"),
            ("sourceFile", JValue.str "f.pdf"), ("id", JValue.str "r1")]])
          ([] ++ (chunkText "hi" 500 50 (by omega)).mapIdx (fun k c =>
            JValue.obj [("resourceId", JValue.str "r1"), ("contentChunk", JValue.str c),
              ("embedding", JValue.arr (((fun _ => [(1 : ℝ)]) c).map JValue.num)),
              ("id", JValue.str ((fun _ => "e0") k))])),
         JValue.obj [("content", JValue.str "hi"), ("sourceFile", JValue.str "f.pdf"),
           ("id", JValue.str "r1")],
         (chunkText "hi" 500 50 (by omega)).length) := by
  exact processPdf_stores_resource_and_chunks (fun _ => [(1 : ℝ)]) "r1" (fun _ => "e0")
    "f.pdf" "hi" (DbState.mk [] []) (by decide)

end RagPoc
